import Mathlib

/-!
Shallow embedding of the WebTorrentRemoteServer broker
(source: src/unnamed/part_000; the older variant in src/server.js is noted
where its behaviour differs).

State that in the source lives in mutable objects is passed explicitly:
every handler takes a `ServerState` and returns the new state together with
the list of observable effects it performed (`_send` calls, engine joins,
server `listen` calls, `destroy` calls, diagnostics).  JS timestamps
(`new Date().getTime()`) are an explicit `now : Int` argument.  The mirror
pair `wt.torrents` / `server._torrents`, which the source keeps in sync
(every `wt.add` result is pushed into `_torrents`, every destroyed torrent
is filtered from both), is represented by the single list
`ServerState.torrents`.
-/

namespace WebTorrentRemote

/-- One subscription: the `{clientKey, torrentKey}` records the source pushes
onto `torrent.clients` (part_000 lines 92, 136). -/
structure Subscription where
  clientKey : String
  torrentKey : String
deriving DecidableEq, Repr

/-- One entry of `server._clients` (part_000 lines 40-43). -/
structure Client where
  clientKey : String
  heartbeat : Int
deriving DecidableEq, Repr

/-- One element of the `files` list in an info payload
(part_000 lines 216-221). -/
structure FilePayload where
  name : Option String
  length : Option Int
deriving DecidableEq, Repr

/-- The `torrent` object built by `getInfoMessage` (part_000 lines 208-224).
Engine-resolved fields that may still be `undefined` are `Option`s. -/
structure TorrentInfo where
  name : Option String
  infohash : Option String
  length : Option Int
  serverURL : Option String
  files : List FilePayload
deriving DecidableEq, Repr

/-- The `torrent` object built by `getProgressMessage`
(part_000 lines 226-241).  The numeric engine metrics are carried as
`Option Int`; no broker logic computes with them, they are only copied. -/
structure ProgressPayload where
  progress : Option Int
  downloaded : Option Int
  uploaded : Option Int
  length : Option Int
  downloadSpeed : Option Int
  uploadSpeed : Option Int
  shareRatio : Option Int
  numPeers : Option Int
  timeRemaining : Option Int
deriving DecidableEq, Repr

/-- One callback queued on `torrent.pendingServerCallbacks`
(part_000 lines 164-170).  The closures in the source capture only the
`(clientKey, torrentKey)` pair plus which message they will send when fired:
`server-ready` (queued from `handleCreateServer`, lines 149-157) or
`torrent-subscribed` (queued from `handleAddTorrent`'s `respond`,
line 139); everything else they read (`torrent.serverURL`, the torrent
snapshot) is read at fire time, which `runCallback` models. -/
inductive ServerCallback where
  | ready (clientKey : String) (torrentKey : String)
  | subscribedNotify (clientKey : String) (torrentKey : String)
deriving DecidableEq, Repr

/-- One torrent tracked in `wt.torrents` / `server._torrents`.  The fields
mirror what the broker reads and writes on the engine's torrent object:
`infoHash`, the `clients` subscription list the broker attaches,
`serverURL` and `pendingServerCallbacks` for the server provisioner,
`destroyed` (set by `torrent.destroy()`), plus the engine-provided
descriptive and metric fields the payload builders copy. -/
structure Torrent where
  infoHash : Option String
  clients : List Subscription
  name : Option String
  length : Option Int
  files : List FilePayload
  progress : Option Int
  downloaded : Option Int
  uploaded : Option Int
  downloadSpeed : Option Int
  uploadSpeed : Option Int
  shareRatio : Option Int
  numPeers : Option Int
  timeRemaining : Option Int
  serverURL : Option String
  pendingServerCallbacks : Option (List ServerCallback)
  destroyed : Bool
deriving DecidableEq, Repr

/-- The broker state: `_webtorrent` (engine instance, present or absent),
`_clients` (an object keyed by `clientKey`; represented as an insertion
ordered list with unique keys), `_torrents`, and the
`options.heartbeatTimeout` setting (absent models `undefined`/`null`). -/
structure ServerState where
  webtorrent : Bool
  clients : List Client
  torrents : List Torrent
  heartbeatTimeout : Option Int
deriving DecidableEq, Repr

/-- An inbound control message `{clientKey, type, torrentKey, torrentID,
options}` (part_000 lines 36-59).  `optionsServer` is `options.server`
read by `handleAddTorrent` (line 140); `optionsDelay` is `options.delay`
read by `handleDestroy` (line 194). -/
structure InMessage where
  clientKey : String
  type : String
  torrentKey : String
  torrentID : Option String
  optionsServer : Bool
  optionsDelay : Option Int
deriving DecidableEq, Repr

/-- The payload part of an outbound message, i.e. everything except the
addressing keys that `Object.assign` merges in on send.  `subscribed`
carries the merged info+progress snapshot of `sendSubscribed` (lines
107-111; the two field groups are kept as a pair - the only duplicated
field, `length`, is copied from the same `torrent.length` in both).  -/
inductive Payload where
  | subscribed (torrent : Option (TorrentInfo × ProgressPayload))
  | ready (serverURL : Option String)
  | infoEvent (type : String) (torrent : TorrentInfo)
  | progressEvent (type : String) (torrent : ProgressPayload)
  | errorEvent (type : String) (message : String)
deriving DecidableEq, Repr

/-- One message handed to `server._send`: the payload plus the addressing
fields merged in (`torrentKey` is absent on all-client broadcasts). -/
structure Envelope where
  payload : Payload
  clientKey : String
  torrentKey : Option String
deriving DecidableEq, Repr

/-- Observable effects of one broker step, in execution order. -/
inductive Effect where
  | send (message : Envelope)
  | logError (text : String)
  | engineCreate
  | engineJoin (infoHash : Option String)
  | listen
  | torrentDestroy (infoHash : Option String)
  | engineDestroy
  | deferredKill (clientKey : String)
deriving DecidableEq, Repr

/-- Modelled from the spec: the external parsing collaborator
(`parse-torrent`, not part of this repository) which, per the interface
section of the spec, yields a content fingerprint from a resource
identifier.  Valid identifiers (40-character fingerprint strings, the form
the real parser accepts directly) yield their fingerprint; an absent or
malformed identifier yields no fingerprint.  This composes the source's
`parseTorrent(torrentID).infoHash`. -/
def parseInfoHash (torrentID : Option String) : Option String :=
  torrentID.bind fun tid => if tid.length == 40 then some tid else none

/-- `getInfoMessage` (part_000 lines 208-224), torrent payload part. -/
def getInfoMessage (t : Torrent) : TorrentInfo :=
  { name := t.name
    infohash := t.infoHash
    length := t.length
    serverURL := t.serverURL
    files := t.files }

/-- `getProgressMessage` (part_000 lines 226-241), torrent payload part. -/
def getProgressMessage (t : Torrent) : ProgressPayload :=
  { progress := t.progress
    downloaded := t.downloaded
    uploaded := t.uploaded
    length := t.length
    downloadSpeed := t.downloadSpeed
    uploadSpeed := t.uploadSpeed
    shareRatio := t.shareRatio
    numPeers := t.numPeers
    timeRemaining := t.timeRemaining }

/-- `sendSubscribed` (part_000 lines 99-114): the `torrent-subscribed`
response, with a null torrent when no swarm was found and the merged
info+progress snapshot otherwise. -/
def sendSubscribed (t : Option Torrent) (clientKey torrentKey : String) :
    Effect :=
  Effect.send
    { payload := Payload.subscribed
        (t.map fun u => (getInfoMessage u, getProgressMessage u))
      clientKey := clientKey
      torrentKey := some torrentKey }

/-- Firing one queued server callback against the torrent state at fire
time (part_000 lines 149-157 for `server-ready`, line 139 for the deferred
`torrent-subscribed` of `handleAddTorrent`). -/
def runCallback (t : Torrent) : ServerCallback → Effect
  | ServerCallback.ready ck tk =>
      Effect.send { payload := Payload.ready t.serverURL
                    clientKey := ck
                    torrentKey := some tk }
  | ServerCallback.subscribedNotify ck tk => sendSubscribed (some t) ck tk

/-- `sendToTorrentClients` (part_000 lines 301-306): one `_send` per
subscription on the torrent, the shared payload merged with that
subscription's `{clientKey, torrentKey}`. -/
def sendToTorrentClients (t : Torrent) (message : Payload) : List Effect :=
  t.clients.map fun c =>
    Effect.send { payload := message
                  clientKey := c.clientKey
                  torrentKey := some c.torrentKey }

/-- `sendToAllClients` (part_000 lines 308-313): one `_send` per known
client; only `clientKey` is merged in. -/
def sendToAllClients (s : ServerState) (message : Payload) : List Effect :=
  s.clients.map fun c =>
    Effect.send { payload := message
                  clientKey := c.clientKey
                  torrentKey := none }

/-- `sendError` (part_000 lines 243-250). -/
def sendError (s : ServerState) (t : Option Torrent) (errMessage : String)
    (type : String) : List Effect :=
  match t with
  | some u => sendToTorrentClients u (Payload.errorEvent type errMessage)
  | none => sendToAllClients s (Payload.errorEvent type errMessage)

/-- Replaces the first element satisfying `p` by `f` of it; models an
in-place mutation of the object `Array.prototype.find` returned. -/
def updateFirst (p : α → Bool) (f : α → α) : List α → List α
  | [] => []
  | x :: xs => if p x then f x :: xs else x :: updateFirst p f xs

/-- `hasTorrentKey` (part_000 lines 328-330). -/
def hasTorrentKey (t : Torrent) (torrentKey : String) : Bool :=
  t.clients.any fun c => c.torrentKey == torrentKey

/-- `server.webtorrent()` (part_000 lines 26-32): lazily creates the
engine instance. -/
def webtorrentLazy (s : ServerState) : ServerState × List Effect :=
  if s.webtorrent then (s, [])
  else ({ s with webtorrent := true }, [Effect.engineCreate])

/-- The client touch-or-create prologue of `receive`
(part_000 lines 37-44). -/
def touchClient (s : ServerState) (clientKey : String) (now : Int) :
    ServerState :=
  if (s.clients.find? fun c => c.clientKey == clientKey).isSome then s
  else { s with clients := s.clients ++ [{ clientKey := clientKey, heartbeat := now }] }

/-- `createServer` (part_000 lines 160-179): answer from the cached URL,
else append to the pending waiter list, else start the single `listen`
(the `torrent.createServer(options)` + `server.listen(...)` pair is the
`Effect.listen`; its completion is the separate `serverListening` step). -/
def createServer (t : Torrent) (cb : ServerCallback) :
    Torrent × List Effect :=
  match t.serverURL with
  | some _ => (t, [runCallback t cb])
  | none =>
    match t.pendingServerCallbacks with
    | some cbs =>
        ({ t with pendingServerCallbacks := some (cbs ++ [cb]) }, [])
    | none => ({ t with pendingServerCallbacks := some [cb] }, [Effect.listen])

/-- The `'listening'` completion callback (part_000 lines 172-177): record
`serverURL`, fire every queued callback against the updated torrent, then
delete the pending list. -/
def serverListening (t : Torrent) (port : Nat) : Torrent × List Effect :=
  let t1 := { t with serverURL := some (("http://localhost:") ++ toString port) }
  ({ t1 with pendingServerCallbacks := none },
   (t1.pendingServerCallbacks.getD []).map (runCallback t1))

/-- Sequential handling of several `createServer` requests against one
torrent (the single-writer event loop runs them back to back). -/
def processServerRequests : Torrent → List ServerCallback → Torrent × List Effect
  | t, [] => (t, [])
  | t, cb :: cbs =>
    let r := createServer t cb
    let rest := processServerRequests r.1 cbs
    (rest.1, r.2 ++ rest.2)

/-- `handleSubscribe` (part_000 lines 81-96): read-only - never creates the
engine instance, never joins; attaches a subscription only to an already
joined swarm, and always responds. -/
def handleSubscribe (s : ServerState) (m : InMessage) :
    ServerState × List Effect :=
  let infohash := parseInfoHash m.torrentID
  let found := if s.webtorrent then s.torrents.find? fun t => t.infoHash == infohash
               else none
  match found with
  | some t =>
    let t1 := { t with clients := t.clients ++ [{ clientKey := m.clientKey, torrentKey := m.torrentKey }] }
    ({ s with torrents := updateFirst (fun u => u.infoHash == infohash) (fun _ => t1) s.torrents },
     [sendSubscribed (some t1) m.clientKey m.torrentKey])
  | none => (s, [sendSubscribed none m.clientKey m.torrentKey])

/-- The fields `wt.add(message.torrentID, message.options)` yields before
any engine event has fired; the fingerprint is the parsed one. -/
def newTorrent (infoHash : Option String) : Torrent :=
  { infoHash := infoHash
    clients := []
    name := none
    length := none
    files := []
    progress := none
    downloaded := none
    uploaded := none
    downloadSpeed := none
    uploadSpeed := none
    shareRatio := none
    numPeers := none
    timeRemaining := none
    serverURL := none
    pendingServerCallbacks := none
    destroyed := false }

/-- The response tail of `handleAddTorrent` (part_000 lines 138-141):
either provision a server first and respond from its callback, or respond
immediately. -/
def addTorrentRespond (m : InMessage) (t : Torrent) : Torrent × List Effect :=
  if m.optionsServer then
    createServer t (ServerCallback.subscribedNotify m.clientKey m.torrentKey)
  else (t, [sendSubscribed (some t) m.clientKey m.torrentKey])

/-- `handleAddTorrent` (part_000 lines 116-142): lazily create the engine,
resolve the fingerprint to an existing swarm or join a new one, push
exactly one subscription, respond. -/
def handleAddTorrent (s : ServerState) (m : InMessage) :
    ServerState × List Effect :=
  let s1 := (webtorrentLazy s).1
  let e1 := (webtorrentLazy s).2
  let infohash := parseInfoHash m.torrentID
  let sub : Subscription := { clientKey := m.clientKey, torrentKey := m.torrentKey }
  match s1.torrents.find? (fun t => t.infoHash == infohash) with
  | some t =>
    let r := addTorrentRespond m { t with clients := t.clients ++ [sub] }
    ({ s1 with torrents := updateFirst (fun u => u.infoHash == infohash) (fun _ => r.1) s1.torrents },
     e1 ++ r.2)
  | none =>
    let r := addTorrentRespond m { newTorrent infohash with clients := [sub] }
    ({ s1 with torrents := s1.torrents ++ [r.1] },
     e1 ++ [Effect.engineJoin infohash] ++ r.2)

/-- `getTorrentByKey` (part_000 lines 315-322): locate a torrent through
the current subscriptions' correlation keys; on a miss emit a warning via
`sendError` (which broadcasts, the torrent argument being null).  Note the
`server.webtorrent()` call lazily creates the engine instance. -/
def getTorrentByKey (s : ServerState) (torrentKey : String) :
    ServerState × Option Torrent × List Effect :=
  let s1 := (webtorrentLazy s).1
  let e1 := (webtorrentLazy s).2
  match s1.torrents.find? (fun t => hasTorrentKey t torrentKey) with
  | some t => (s1, some t, e1)
  | none =>
      (s1, none,
       e1 ++ sendError s1 none (("missing torrentKey: ") ++ torrentKey) ("warning"))

/-- `handleCreateServer` (part_000 lines 144-158): return silently when the
key resolves to no torrent, else run the provisioner with a `server-ready`
callback for the requester. -/
def handleCreateServer (s : ServerState) (m : InMessage) :
    ServerState × List Effect :=
  let r := getTorrentByKey s m.torrentKey
  match r.2.1 with
  | none => (r.1, r.2.2)
  | some t =>
    let cs := createServer t (ServerCallback.ready m.clientKey m.torrentKey)
    ({ r.1 with torrents := updateFirst (fun u => hasTorrentKey u m.torrentKey) (fun _ => cs.1) r.1.torrents },
     r.2.2 ++ cs.2)

/-- `handleHeartbeat` (part_000 lines 181-185). -/
def handleHeartbeat (s : ServerState) (now : Int) (m : InMessage) :
    ServerState × List Effect :=
  match s.clients.find? (fun c => c.clientKey == m.clientKey) with
  | none =>
      (s, [Effect.logError (("skipping heartbeat for unknown clientKey ") ++ m.clientKey)])
  | some _ =>
      ({ s with clients := s.clients.map fun c =>
           if c.clientKey == m.clientKey then { c with heartbeat := now } else c },
       [])

/-- The per-torrent part of `killClients` (part_000 lines 286-291): filter
out the dead subscriptions, and `torrent.destroy()` (which sets the
`destroyed` flag) when none remain. -/
def killSubscriptions (clientKeys : List String) (t : Torrent) : Torrent :=
  let cs := t.clients.filter fun c => !clientKeys.contains c.clientKey
  if cs.isEmpty then { t with clients := cs, destroyed := true }
  else { t with clients := cs }

/-- `killClients` (part_000 lines 273-299): the cascading teardown. -/
def killClients (s : ServerState) (clientKeys : List String) :
    ServerState × List Effect :=
  if clientKeys.isEmpty then (s, [])
  else
    let clients := s.clients.filter fun c => !clientKeys.contains c.clientKey
    let marked := s.torrents.map (killSubscriptions clientKeys)
    let destroyEffects :=
      (marked.filter fun t => t.clients.isEmpty).map fun t =>
        Effect.torrentDestroy t.infoHash
    let torrents := marked.filter fun t => !t.destroyed
    if torrents.isEmpty && s.webtorrent then
      ({ s with clients := clients, torrents := torrents, webtorrent := false },
       destroyEffects ++ [Effect.engineDestroy])
    else
      ({ s with clients := clients, torrents := torrents }, destroyEffects)

/-- `handleDestroy` (part_000 lines 189-196): kill now, or schedule the
same kill after `options.delay` (the deferred call is recorded as an
effect; the state change happens at fire time, outside this step). -/
def handleDestroy (s : ServerState) (m : InMessage) :
    ServerState × List Effect :=
  if m.optionsDelay.getD 0 != 0 then (s, [Effect.deferredKill m.clientKey])
  else killClients s [m.clientKey]

/-- `removeDeadClients` (part_000 lines 261-271): collect the keys whose
heartbeat age strictly exceeds the timeout, then cascade. -/
def removeDeadClients (s : ServerState) (now heartbeatTimeout : Int) :
    ServerState × List Effect :=
  let clientKeys :=
    (s.clients.filter fun c => decide (now - c.heartbeat > heartbeatTimeout)).map
      fun c => c.clientKey
  killClients s clientKeys

/-- `sendUpdates` (part_000 lines 252-259): one sweep tick - expiry (with
the 30000 ms default, disabled when the configured value is not positive)
followed by an unconditional progress `update` fan-out per torrent. -/
def sendUpdates (s : ServerState) (now : Int) : ServerState × List Effect :=
  let heartbeatTimeout := s.heartbeatTimeout.getD 30000
  let r := if heartbeatTimeout > 0 then removeDeadClients s now heartbeatTimeout
           else (s, [])
  (r.1,
   r.2 ++ (r.1.torrents.map fun t =>
     sendToTorrentClients t (Payload.progressEvent ("update") (getProgressMessage t))).flatten)

/-- `receive` (part_000 lines 36-59): touch-or-create the client entry,
then dispatch on the message type; unknown types only log. -/
def receive (s : ServerState) (now : Int) (m : InMessage) :
    ServerState × List Effect :=
  let s1 := touchClient s m.clientKey now
  if m.type == "subscribe" then handleSubscribe s1 m
  else if m.type == "add-torrent" then handleAddTorrent s1 m
  else if m.type == "create-server" then handleCreateServer s1 m
  else if m.type == "heartbeat" then handleHeartbeat s1 now m
  else if m.type == "destroy" then handleDestroy s1 m
  else (s1, [Effect.logError (("ignoring unknown message type: ") ++ m.type)])

/-- Total number of subscriptions equal to `sub` across all torrents. -/
def countSub (s : ServerState) (sub : Subscription) : Nat :=
  (s.torrents.map fun t => t.clients.count sub).sum

/-- Recognizer for engine-level join effects. -/
def isEngineJoin : Effect → Bool
  | Effect.engineJoin _ => true
  | _ => false

/-! ### Basic properties of the state helpers -/

theorem webtorrentLazy_torrents (s : ServerState) :
    (webtorrentLazy s).1.torrents = s.torrents := by
  unfold webtorrentLazy; split <;> rfl

theorem webtorrentLazy_clients (s : ServerState) :
    (webtorrentLazy s).1.clients = s.clients := by
  unfold webtorrentLazy; split <;> rfl

theorem webtorrentLazy_webtorrent (s : ServerState) :
    (webtorrentLazy s).1.webtorrent = true := by
  unfold webtorrentLazy; split <;> simp_all

theorem updateFirst_length (p : α → Bool) (f : α → α) (l : List α) :
    (updateFirst p f l).length = l.length := by
  induction l with
  | nil => rfl
  | cons x xs ih => unfold updateFirst; split <;> simp [ih]

theorem map_updateFirst_of_eq {p : α → Bool} {g : α → β} {b : α} {l : List α}
    {a : α} (hfind : l.find? p = some a) (heq : g b = g a) :
    (updateFirst p (fun _ => b) l).map g = l.map g := by
  induction l with
  | nil => simp at hfind
  | cons x xs ih =>
    unfold updateFirst
    by_cases hx : p x
    · rw [List.find?_cons_of_pos _ hx] at hfind
      injection hfind with h; subst h
      simp [hx, heq]
    · rw [List.find?_cons_of_neg _ hx] at hfind
      simp [hx, ih hfind]

theorem sum_map_updateFirst {p : α → Bool} (g : α → Nat) {b : α} {l : List α}
    {a : α} (hfind : l.find? p = some a) :
    ((updateFirst p (fun _ => b) l).map g).sum + g a = (l.map g).sum + g b := by
  induction l with
  | nil => simp at hfind
  | cons x xs ih =>
    unfold updateFirst
    cases hx : p x with
    | true =>
      rw [List.find?_cons_of_pos _ hx] at hfind
      injection hfind with h; subst h
      simp [hx]; omega
    | false =>
      rw [List.find?_cons_of_neg _ (by simp [hx])] at hfind
      have := ih hfind
      simp only [hx, Bool.false_eq_true, if_false, List.map_cons, List.sum_cons]
      omega

/-! ### C6 -/

/-- C6: swarm-scoped fan-out emits exactly one outbound message per
subscription on the swarm: for every swarm with N subscriptions and every
payload, `sendToTorrentClients` performs exactly N `_send`s, each being the
shared payload merged with that subscription's own `(clientKey, torrentKey)`
pair, so each subscriber receives exactly one correctly addressed copy per
event. -/
theorem sendToTorrentClients_fanout (t : Torrent) (p : Payload) :
    (sendToTorrentClients t p).length = t.clients.length ∧
    ∀ sub : Subscription,
      (sendToTorrentClients t p).count
          (Effect.send { payload := p, clientKey := sub.clientKey, torrentKey := some sub.torrentKey })
        = t.clients.count sub := by
  constructor
  · simp [sendToTorrentClients]
  · intro sub
    have hinj : Function.Injective (fun c : Subscription =>
        Effect.send { payload := p, clientKey := c.clientKey, torrentKey := some c.torrentKey }) := by
      intro a b hab
      simp only [Effect.send.injEq, Envelope.mk.injEq, Option.some.injEq] at hab
      cases a; cases b; simp_all
    simpa [sendToTorrentClients] using
      List.count_map_of_injective t.clients _ hinj sub

/-! ### C3 -/

theorem processServerRequests_pending {t : Torrent} {l : List ServerCallback}
    (cbs : List ServerCallback) (hURL : t.serverURL = none)
    (hPend : t.pendingServerCallbacks = some l) :
    processServerRequests t cbs
      = ({ t with pendingServerCallbacks := some (l ++ cbs) }, []) := by
  induction cbs generalizing t l with
  | nil =>
    show (t, ([] : List Effect)) = _
    rw [List.append_nil, ← hPend]
  | cons cb cbs ih =>
    have hstep : createServer t cb
        = ({ t with pendingServerCallbacks := some (l ++ [cb]) }, []) := by
      unfold createServer
      rw [hURL, hPend]
    show ((processServerRequests (createServer t cb).1 cbs).1,
          (createServer t cb).2 ++ (processServerRequests (createServer t cb).1 cbs).2) = _
    rw [hstep]
    rw [ih (t := { t with pendingServerCallbacks := some (l ++ [cb]) }) hURL rfl]
    simp

/-- C3: server provisioning is single-flight per swarm.  Handling N
`createServer` requests before the asynchronous listen completes performs
exactly one `listen`; on completion the swarm records the `serverURL`, all
N requesters each receive one `server-ready` notification carrying the
identical URL, and the waiter list is cleared; any request handled after
the URL is recorded is answered immediately with the cached URL and starts
no new listen. -/
theorem createServer_single_flight
    (t : Torrent) (waiters : List Subscription) (port : Nat)
    (hURL : t.serverURL = none) (hPend : t.pendingServerCallbacks = none)
    (hne : waiters ≠ []) :
    (processServerRequests t
        (waiters.map fun w => ServerCallback.ready w.clientKey w.torrentKey)).2
      = [Effect.listen] ∧
    (serverListening
        (processServerRequests t
          (waiters.map fun w => ServerCallback.ready w.clientKey w.torrentKey)).1
        port).1.serverURL = some (("http://localhost:") ++ toString port) ∧
    (serverListening
        (processServerRequests t
          (waiters.map fun w => ServerCallback.ready w.clientKey w.torrentKey)).1
        port).1.pendingServerCallbacks = none ∧
    (serverListening
        (processServerRequests t
          (waiters.map fun w => ServerCallback.ready w.clientKey w.torrentKey)).1
        port).2
      = waiters.map (fun w => Effect.send
          { payload := Payload.ready (some (("http://localhost:") ++ toString port))
            clientKey := w.clientKey
            torrentKey := some w.torrentKey }) ∧
    (∀ sub : Subscription,
      createServer
          (serverListening
            (processServerRequests t
              (waiters.map fun w => ServerCallback.ready w.clientKey w.torrentKey)).1
            port).1
          (ServerCallback.ready sub.clientKey sub.torrentKey)
        = ((serverListening
              (processServerRequests t
                (waiters.map fun w => ServerCallback.ready w.clientKey w.torrentKey)).1
              port).1,
           [Effect.send
             { payload := Payload.ready (some (("http://localhost:") ++ toString port))
               clientKey := sub.clientKey
               torrentKey := some sub.torrentKey }])) := by
  obtain ⟨w, ws, rfl⟩ : ∃ w ws, waiters = w :: ws := by
    cases waiters with
    | nil => exact absurd rfl hne
    | cons w ws => exact ⟨w, ws, rfl⟩
  have hstep : createServer t (ServerCallback.ready w.clientKey w.torrentKey)
      = ({ t with pendingServerCallbacks :=
             (some [ServerCallback.ready w.clientKey w.torrentKey]) },
         [Effect.listen]) := by
    unfold createServer
    rw [hURL, hPend]
  have hrun : processServerRequests t
      ((w :: ws).map fun u => ServerCallback.ready u.clientKey u.torrentKey)
      = ({ t with pendingServerCallbacks :=
             (some ((w :: ws).map fun u => ServerCallback.ready u.clientKey u.torrentKey)) },
         [Effect.listen]) := by
    show ((processServerRequests (createServer t _).1 _).1,
          (createServer t _).2 ++ (processServerRequests (createServer t _).1 _).2) = _
    rw [hstep]
    rw [processServerRequests_pending
          (t := { t with pendingServerCallbacks :=
                    (some [ServerCallback.ready w.clientKey w.torrentKey]) })
          (ws.map fun u => ServerCallback.ready u.clientKey u.torrentKey) hURL rfl]
    simp
  rw [hrun]
  refine ⟨rfl, rfl, rfl, ?_, ?_⟩
  · simp [serverListening, runCallback]
  · intro sub
    unfold createServer
    rfl

/-- Witness data: a freshly joined torrent with no server yet. -/
def witnessTorrent : Torrent := newTorrent (some ("h000"))

/-- Witness data: two concurrent server requesters. -/
def witnessWaiters : List Subscription :=
  [{ clientKey := "a", torrentKey := "k1" }, { clientKey := "b", torrentKey := "k2" }]

theorem createServer_single_flight_witness :
    (processServerRequests witnessTorrent
        (witnessWaiters.map fun w => ServerCallback.ready w.clientKey w.torrentKey)).2
      = [Effect.listen] ∧
    (serverListening
        (processServerRequests witnessTorrent
          (witnessWaiters.map fun w => ServerCallback.ready w.clientKey w.torrentKey)).1
        8080).1.serverURL = some (("http://localhost:") ++ toString 8080) ∧
    (serverListening
        (processServerRequests witnessTorrent
          (witnessWaiters.map fun w => ServerCallback.ready w.clientKey w.torrentKey)).1
        8080).1.pendingServerCallbacks = none ∧
    (serverListening
        (processServerRequests witnessTorrent
          (witnessWaiters.map fun w => ServerCallback.ready w.clientKey w.torrentKey)).1
        8080).2
      = witnessWaiters.map (fun w => Effect.send
          { payload := Payload.ready (some (("http://localhost:") ++ toString 8080))
            clientKey := w.clientKey
            torrentKey := some w.torrentKey }) ∧
    (∀ sub : Subscription,
      createServer
          (serverListening
            (processServerRequests witnessTorrent
              (witnessWaiters.map fun w => ServerCallback.ready w.clientKey w.torrentKey)).1
            8080).1
          (ServerCallback.ready sub.clientKey sub.torrentKey)
        = ((serverListening
              (processServerRequests witnessTorrent
                (witnessWaiters.map fun w => ServerCallback.ready w.clientKey w.torrentKey)).1
              8080).1,
           [Effect.send
             { payload := Payload.ready (some (("http://localhost:") ++ toString 8080))
               clientKey := sub.clientKey
               torrentKey := some sub.torrentKey }])) :=
  createServer_single_flight witnessTorrent witnessWaiters 8080 rfl rfl (by decide)

/-! ### C2 -/

theorem webtorrentLazy_no_join (s : ServerState) :
    (webtorrentLazy s).2.countP isEngineJoin = 0 := by
  unfold webtorrentLazy; split <;> simp [isEngineJoin]

theorem runCallback_not_join (t : Torrent) (cb : ServerCallback) :
    isEngineJoin (runCallback t cb) = false := by
  cases cb <;> simp [runCallback, sendSubscribed, isEngineJoin]

theorem createServer_fst_clients (t : Torrent) (cb : ServerCallback) :
    (createServer t cb).1.clients = t.clients := by
  unfold createServer
  split
  · rfl
  · split <;> rfl

theorem createServer_fst_infoHash (t : Torrent) (cb : ServerCallback) :
    (createServer t cb).1.infoHash = t.infoHash := by
  unfold createServer
  split
  · rfl
  · split <;> rfl

theorem createServer_no_join (t : Torrent) (cb : ServerCallback) :
    (createServer t cb).2.countP isEngineJoin = 0 := by
  unfold createServer
  split
  · simp [List.countP_cons, runCallback_not_join]
  · split <;> simp [List.countP_cons, isEngineJoin]

theorem addTorrentRespond_fst_clients (m : InMessage) (t : Torrent) :
    (addTorrentRespond m t).1.clients = t.clients := by
  unfold addTorrentRespond
  split
  · exact createServer_fst_clients t _
  · rfl

theorem addTorrentRespond_fst_infoHash (m : InMessage) (t : Torrent) :
    (addTorrentRespond m t).1.infoHash = t.infoHash := by
  unfold addTorrentRespond
  split
  · exact createServer_fst_infoHash t _
  · rfl

theorem addTorrentRespond_no_join (m : InMessage) (t : Torrent) :
    (addTorrentRespond m t).2.countP isEngineJoin = 0 := by
  unfold addTorrentRespond
  split
  · exact createServer_no_join t _
  · simp [List.countP_cons, sendSubscribed, isEngineJoin]

/-- C2: for every broker state with pairwise-distinct swarm fingerprints,
handling an add-torrent message whose identifier parses to the fingerprint
of an already-registered swarm adds one subscription for
`(clientKey, torrentKey)` to that swarm and performs no second engine-level
join; only when no registered swarm matches is the engine asked to join
(exactly once); either branch ends with exactly one new subscription for
the pair, and fingerprints stay pairwise distinct. -/
theorem handleAddTorrent_dedup_single_subscription
    (s : ServerState) (m : InMessage) (ih : String)
    (hparse : parseInfoHash m.torrentID = some ih)
    (hnodup : (s.torrents.map Torrent.infoHash).Nodup) :
    countSub (handleAddTorrent s m).1 { clientKey := m.clientKey, torrentKey := m.torrentKey }
        = countSub s { clientKey := m.clientKey, torrentKey := m.torrentKey } + 1 ∧
    ((handleAddTorrent s m).1.torrents.map Torrent.infoHash).Nodup ∧
    ((∃ t ∈ s.torrents, t.infoHash = some ih) →
      (handleAddTorrent s m).2.countP isEngineJoin = 0 ∧
      (handleAddTorrent s m).1.torrents.length = s.torrents.length) ∧
    ((∀ t ∈ s.torrents, t.infoHash ≠ some ih) →
      (handleAddTorrent s m).2.countP isEngineJoin = 1 ∧
      (handleAddTorrent s m).1.torrents.length = s.torrents.length + 1) := by
  have hwt := webtorrentLazy_torrents s
  cases hfind : s.torrents.find? (fun t => t.infoHash == some ih) with
  | some t =>
    have htmem := List.mem_of_find?_eq_some hfind
    have hteq : t.infoHash = some ih := by
      have := List.find?_some hfind
      rwa [beq_iff_eq] at this
    simp only [handleAddTorrent, hwt, hparse, hfind, countSub]
    refine ⟨?_, ?_, ?_, ?_⟩
    · have hsum := sum_map_updateFirst
        (fun u => u.clients.count { clientKey := m.clientKey, torrentKey := m.torrentKey })
        (b := (addTorrentRespond m
          { t with clients := t.clients ++ [{ clientKey := m.clientKey, torrentKey := m.torrentKey }] }).1)
        hfind
      simp only [addTorrentRespond_fst_clients, List.count_append, List.count_cons,
        List.count_nil, beq_self_eq_true, if_true] at hsum
      omega
    · have heq2 : (addTorrentRespond m
          { t with clients := t.clients ++ [{ clientKey := m.clientKey, torrentKey := m.torrentKey }] }).1.infoHash
          = t.infoHash := by
        rw [addTorrentRespond_fst_infoHash]
      rw [map_updateFirst_of_eq hfind heq2]
      exact hnodup
    · intro _
      refine ⟨?_, updateFirst_length _ _ _⟩
      simp [List.countP_append, webtorrentLazy_no_join, addTorrentRespond_no_join]
    · intro hnone
      exact absurd hteq (hnone t htmem)
  | none =>
    have hnomatch : ∀ t ∈ s.torrents, t.infoHash ≠ some ih := by
      intro t htm heq
      have := List.find?_eq_none.mp hfind t htm
      simp [heq] at this
    simp only [handleAddTorrent, hwt, hparse, hfind, countSub]
    refine ⟨?_, ?_, ?_, ?_⟩
    · simp only [List.map_append, List.map_cons, List.map_nil, List.sum_append,
        List.sum_cons, List.sum_nil, addTorrentRespond_fst_clients]
      simp [List.count_cons]
    · have hnew : (addTorrentRespond m
          { newTorrent (some ih) with clients := [{ clientKey := m.clientKey, torrentKey := m.torrentKey }] }).1.infoHash
          = some ih := by
        rw [addTorrentRespond_fst_infoHash]; rfl
      simp only [List.map_append, List.map_cons, List.map_nil, hnew]
      rw [List.nodup_append]
      refine ⟨hnodup, List.nodup_singleton _, ?_⟩
      intro x hx hx1
      have hx2 : x = some ih := by simpa using hx1
      obtain ⟨u, htm, hueq⟩ := List.mem_map.mp hx
      exact hnomatch u htm (hx2 ▸ hueq)
    · intro hsome
      obtain ⟨u, htm, hueq⟩ := hsome
      exact absurd hueq (hnomatch u htm)
    · intro _
      constructor
      · simp [List.countP_append, List.countP_cons, webtorrentLazy_no_join,
          addTorrentRespond_no_join, isEngineJoin]
      · simp

/-- Witness data: a 40-character fingerprint string. -/
def fortyHash : String := "aaaaaaaaaaaaaaaaaaaaaaaaaaaaaaaaaaaaaaaa"

/-- Witness data: a state with one swarm already joined by client `a`. -/
def c2State : ServerState :=
  { webtorrent := true
    clients := [{ clientKey := "a", heartbeat := 0 }]
    torrents := [{ newTorrent (some fortyHash) with
                   clients := [{ clientKey := "a", torrentKey := "k1" }] }]
    heartbeatTimeout := none }

/-- Witness data: a second client adding the same content. -/
def c2Message : InMessage :=
  { clientKey := "b"
    type := "add-torrent"
    torrentKey := "k2"
    torrentID := some fortyHash
    optionsServer := false
    optionsDelay := none }

theorem handleAddTorrent_dedup_single_subscription_witness :
    countSub (handleAddTorrent c2State c2Message).1
        { clientKey := c2Message.clientKey, torrentKey := c2Message.torrentKey }
      = countSub c2State { clientKey := c2Message.clientKey, torrentKey := c2Message.torrentKey } + 1 ∧
    ((handleAddTorrent c2State c2Message).1.torrents.map Torrent.infoHash).Nodup ∧
    ((∃ t ∈ c2State.torrents, t.infoHash = some fortyHash) →
      (handleAddTorrent c2State c2Message).2.countP isEngineJoin = 0 ∧
      (handleAddTorrent c2State c2Message).1.torrents.length = c2State.torrents.length) ∧
    ((∀ t ∈ c2State.torrents, t.infoHash ≠ some fortyHash) →
      (handleAddTorrent c2State c2Message).2.countP isEngineJoin = 1 ∧
      (handleAddTorrent c2State c2Message).1.torrents.length = c2State.torrents.length + 1) :=
  handleAddTorrent_dedup_single_subscription c2State c2Message fortyHash
    (by decide) (by decide)

/-! ### C1 -/

theorem killSubscriptions_clients (keys : List String) (t : Torrent) :
    (killSubscriptions keys t).clients
      = t.clients.filter fun c => !keys.contains c.clientKey := by
  simp only [killSubscriptions]
  split <;> rfl

theorem killSubscriptions_infoHash (keys : List String) (t : Torrent) :
    (killSubscriptions keys t).infoHash = t.infoHash := by
  simp only [killSubscriptions]
  split <;> rfl

theorem killSubscriptions_destroyed (keys : List String) (t : Torrent) :
    (killSubscriptions keys t).destroyed
      = ((t.clients.filter fun c => !keys.contains c.clientKey).isEmpty || t.destroyed) := by
  simp only [killSubscriptions]
  split <;> simp_all

theorem killClients_fst_clients {s : ServerState} {keys : List String}
    (h : keys ≠ []) :
    (killClients s keys).1.clients
      = s.clients.filter fun c => !keys.contains c.clientKey := by
  have hne : keys.isEmpty = false := by
    cases keys with
    | nil => exact absurd rfl h
    | cons a l => rfl
  simp only [killClients, hne, Bool.false_eq_true, if_false]
  split <;> rfl

theorem killClients_fst_torrents {s : ServerState} {keys : List String}
    (h : keys ≠ []) :
    (killClients s keys).1.torrents
      = (s.torrents.map (killSubscriptions keys)).filter fun t => !t.destroyed := by
  have hne : keys.isEmpty = false := by
    cases keys with
    | nil => exact absurd rfl h
    | cons a l => rfl
  simp only [killClients, hne, Bool.false_eq_true, if_false]
  split <;> rfl

theorem killClients_fst_webtorrent {s : ServerState} {keys : List String}
    (h : keys ≠ []) :
    (killClients s keys).1.webtorrent
      = (s.webtorrent &&
         !((s.torrents.map (killSubscriptions keys)).filter fun t => !t.destroyed).isEmpty) := by
  have hne : keys.isEmpty = false := by
    cases keys with
    | nil => exact absurd rfl h
    | cons a l => rfl
  simp only [killClients, hne, Bool.false_eq_true, if_false]
  split
  · next hc =>
    rw [Bool.and_eq_true] at hc
    simp [hc.1, hc.2]
  · next hc =>
    cases hw : s.webtorrent with
    | false => rfl
    | true =>
      cases hT : ((s.torrents.map (killSubscriptions keys)).filter fun t => !t.destroyed).isEmpty with
      | false => simp [hT]
      | true => exact absurd (by rw [Bool.and_eq_true]; exact ⟨hT, hw⟩) hc

theorem killClients_snd {s : ServerState} {keys : List String} (h : keys ≠ []) :
    (killClients s keys).2
      = (((s.torrents.map (killSubscriptions keys)).filter fun t => t.clients.isEmpty).map
          fun t => Effect.torrentDestroy t.infoHash)
        ++ (if (((s.torrents.map (killSubscriptions keys)).filter fun t => !t.destroyed).isEmpty
                && s.webtorrent) then [Effect.engineDestroy] else []) := by
  have hne : keys.isEmpty = false := by
    cases keys with
    | nil => exact absurd rfl h
    | cons a l => rfl
  simp only [killClients, hne, Bool.false_eq_true, if_false]
  split
  · rfl
  · simp

/-- C1: cascading teardown.  Killing a nonempty set of client keys removes
exactly those clients from the registry; every subscription whose
`clientKey` is in the set is dropped from every swarm; every swarm whose
subscriber set becomes empty is destroyed at the engine level and removed
from the registry (no surviving swarm is empty); and the engine instance is
destroyed exactly when it existed and zero swarms remain, its reference
being cleared. -/
theorem killClients_cascading_teardown
    (s : ServerState) (keys : List String) (hkeys : keys ≠ []) :
    ((killClients s keys).1.clients
        = s.clients.filter fun c => !keys.contains c.clientKey) ∧
    (∀ c ∈ (killClients s keys).1.clients, c.clientKey ∉ keys) ∧
    (∀ t ∈ (killClients s keys).1.torrents, ∀ c ∈ t.clients, c.clientKey ∉ keys) ∧
    (∀ t ∈ (killClients s keys).1.torrents, t.clients ≠ []) ∧
    (∀ hOpt : Option String,
      Effect.torrentDestroy hOpt ∈ (killClients s keys).2 ↔
        ∃ t ∈ s.torrents, t.infoHash = hOpt ∧
          (t.clients.filter fun c => !keys.contains c.clientKey) = []) ∧
    ((killClients s keys).1.webtorrent
        = (s.webtorrent && !(killClients s keys).1.torrents.isEmpty)) ∧
    (Effect.engineDestroy ∈ (killClients s keys).2 ↔
        ((killClients s keys).1.torrents = [] ∧ s.webtorrent = true)) := by
  refine ⟨killClients_fst_clients hkeys, ?_, ?_, ?_, ?_, ?_, ?_⟩
  · intro c hc
    rw [killClients_fst_clients hkeys] at hc
    simp only [List.mem_filter, Bool.not_eq_true'] at hc
    simpa using hc.2
  · intro t ht c hcmem
    rw [killClients_fst_torrents hkeys] at ht
    simp only [List.mem_filter, List.mem_map] at ht
    obtain ⟨⟨u, humem, rfl⟩, _⟩ := ht
    rw [killSubscriptions_clients] at hcmem
    simp only [List.mem_filter, Bool.not_eq_true'] at hcmem
    simpa using hcmem.2
  · intro t ht
    rw [killClients_fst_torrents hkeys] at ht
    simp only [List.mem_filter, List.mem_map] at ht
    obtain ⟨⟨u, humem, rfl⟩, hnd⟩ := ht
    rw [Bool.not_eq_eq_eq_not, Bool.not_true, killSubscriptions_destroyed,
      Bool.or_eq_false_iff] at hnd
    rw [killSubscriptions_clients]
    exact (List.isEmpty_eq_false.mp hnd.1)
  · intro hOpt
    rw [killClients_snd hkeys, List.mem_append]
    constructor
    · intro hmem
      rcases hmem with hl | hr
      · rw [List.mem_map] at hl
        obtain ⟨a, hamem, heq⟩ := hl
        rw [List.mem_filter] at hamem
        obtain ⟨hamap, hemp⟩ := hamem
        rw [List.mem_map] at hamap
        obtain ⟨v, hv, rfl⟩ := hamap
        injection heq with h2
        rw [killSubscriptions_infoHash] at h2
        rw [killSubscriptions_clients] at hemp
        exact ⟨v, hv, h2, List.isEmpty_iff.mp hemp⟩
      · exfalso
        revert hr
        split <;> simp
    · intro ⟨t, htmem, hih, hemp⟩
      left
      rw [List.mem_map]
      refine ⟨killSubscriptions keys t, ?_, ?_⟩
      · rw [List.mem_filter]
        refine ⟨List.mem_map.mpr ⟨t, htmem, rfl⟩, ?_⟩
        rw [killSubscriptions_clients, hemp]
        rfl
      · rw [killSubscriptions_infoHash, hih]
  · rw [killClients_fst_webtorrent hkeys, killClients_fst_torrents hkeys]
  · rw [killClients_snd hkeys, List.mem_append]
    constructor
    · intro hmem
      rcases hmem with hl | hr
      · exfalso
        rw [List.mem_map] at hl
        obtain ⟨a, _, heq⟩ := hl
        exact Effect.noConfusion heq
      · split at hr
        · next hc =>
          rw [Bool.and_eq_true] at hc
          refine ⟨?_, hc.2⟩
          rw [killClients_fst_torrents hkeys]
          exact List.isEmpty_iff.mp hc.1
        · simp at hr
    · intro ⟨hT, hw⟩
      right
      rw [killClients_fst_torrents hkeys] at hT
      rw [if_pos (by rw [Bool.and_eq_true]; exact ⟨List.isEmpty_iff.mpr hT, hw⟩)]
      simp

/-- Witness data: two clients, one shared swarm plus one swarm held only by
the client about to die. -/
def c1State : ServerState :=
  { webtorrent := true
    clients := [{ clientKey := "a", heartbeat := 0 }, { clientKey := "b", heartbeat := 0 }]
    torrents :=
      [{ newTorrent (some ("h1")) with
         clients := [{ clientKey := "a", torrentKey := "k1" },
                     { clientKey := "b", torrentKey := "k2" }] },
       { newTorrent (some ("h2")) with
         clients := [{ clientKey := "b", torrentKey := "k3" }] }]
    heartbeatTimeout := none }

/-- Witness data: the expired client set. -/
def c1Keys : List String := ["b"]

theorem killClients_cascading_teardown_witness :
    ((killClients c1State c1Keys).1.clients
        = c1State.clients.filter fun c => !c1Keys.contains c.clientKey) ∧
    (∀ c ∈ (killClients c1State c1Keys).1.clients, c.clientKey ∉ c1Keys) ∧
    (∀ t ∈ (killClients c1State c1Keys).1.torrents, ∀ c ∈ t.clients, c.clientKey ∉ c1Keys) ∧
    (∀ t ∈ (killClients c1State c1Keys).1.torrents, t.clients ≠ []) ∧
    (∀ hOpt : Option String,
      Effect.torrentDestroy hOpt ∈ (killClients c1State c1Keys).2 ↔
        ∃ t ∈ c1State.torrents, t.infoHash = hOpt ∧
          (t.clients.filter fun c => !c1Keys.contains c.clientKey) = []) ∧
    ((killClients c1State c1Keys).1.webtorrent
        = (c1State.webtorrent && !(killClients c1State c1Keys).1.torrents.isEmpty)) ∧
    (Effect.engineDestroy ∈ (killClients c1State c1Keys).2 ↔
        ((killClients c1State c1Keys).1.torrents = [] ∧ c1State.webtorrent = true)) :=
  killClients_cascading_teardown c1State c1Keys (by decide)

/-! ### C4 -/

theorem handleSubscribe_fst_clients (s : ServerState) (m : InMessage) :
    (handleSubscribe s m).1.clients = s.clients := by
  by_cases hw : s.webtorrent = true
  · cases hf : s.torrents.find? fun t => t.infoHash == parseInfoHash m.torrentID with
    | some t => simp [handleSubscribe, hw, hf]
    | none => simp [handleSubscribe, hw, hf]
  · simp [handleSubscribe, hw]

theorem handleAddTorrent_fst_clients (s : ServerState) (m : InMessage) :
    (handleAddTorrent s m).1.clients = s.clients := by
  cases hf : (webtorrentLazy s).1.torrents.find? fun t => t.infoHash == parseInfoHash m.torrentID with
  | some t => simp [handleAddTorrent, hf, webtorrentLazy_clients]
  | none => simp [handleAddTorrent, hf, webtorrentLazy_clients]

theorem getTorrentByKey_fst_clients (s : ServerState) (k : String) :
    (getTorrentByKey s k).1.clients = s.clients := by
  cases hf : s.torrents.find? fun t => hasTorrentKey t k with
  | some t => simp [getTorrentByKey, webtorrentLazy_torrents, hf, webtorrentLazy_clients]
  | none => simp [getTorrentByKey, webtorrentLazy_torrents, hf, webtorrentLazy_clients]

theorem getTorrentByKey_fst_torrents (s : ServerState) (k : String) :
    (getTorrentByKey s k).1.torrents = s.torrents := by
  cases hf : s.torrents.find? fun t => hasTorrentKey t k with
  | some t => simp [getTorrentByKey, webtorrentLazy_torrents, hf]
  | none => simp [getTorrentByKey, webtorrentLazy_torrents, hf]

theorem getTorrentByKey_fst_webtorrent (s : ServerState) (k : String) :
    (getTorrentByKey s k).1.webtorrent = true := by
  cases hf : s.torrents.find? fun t => hasTorrentKey t k with
  | some t => simp [getTorrentByKey, webtorrentLazy_torrents, hf, webtorrentLazy_webtorrent]
  | none => simp [getTorrentByKey, webtorrentLazy_torrents, hf, webtorrentLazy_webtorrent]

theorem handleCreateServer_fst_clients (s : ServerState) (m : InMessage) :
    (handleCreateServer s m).1.clients = s.clients := by
  cases hr : (getTorrentByKey s m.torrentKey).2.1 with
  | some t => simp [handleCreateServer, hr, getTorrentByKey_fst_clients]
  | none => simp [handleCreateServer, hr, getTorrentByKey_fst_clients]

theorem touchClient_find (s : ServerState) (ck : String) (now : Int) :
    (touchClient s ck now).clients.find? (fun c => c.clientKey == ck)
      = some ((s.clients.find? fun c => c.clientKey == ck).getD
          { clientKey := ck, heartbeat := now }) := by
  unfold touchClient
  cases hf : s.clients.find? fun c => c.clientKey == ck with
  | some cl => simp [hf]
  | none => simp [hf, List.find?_append]

theorem find?_map_heartbeat_update (l : List Client) (k : String) (now : Int) :
    (l.map fun c => if c.clientKey == k then { c with heartbeat := now } else c).find?
        (fun c => c.clientKey == k)
      = (l.find? fun c => c.clientKey == k).map fun c => { c with heartbeat := now } := by
  induction l with
  | nil => rfl
  | cons c cs ih =>
    cases hc : c.clientKey == k with
    | true =>
      rw [List.map_cons, if_pos hc]
      rw [List.find?_cons_of_pos (p := fun x : Client => x.clientKey == k) _ (by simpa using hc)]
      rw [List.find?_cons_of_pos (p := fun x : Client => x.clientKey == k) _ hc]
      rfl
    | false =>
      rw [List.map_cons, if_neg (by simp [hc])]
      rw [List.find?_cons_of_neg (p := fun x : Client => x.clientKey == k) _ (by simp [hc])]
      rw [List.find?_cons_of_neg (p := fun x : Client => x.clientKey == k) _ (by simp [hc])]
      rw [ih]

theorem receive_fst_clients_eq (s : ServerState) (now : Int) (m : InMessage)
    (hnd : m.type ≠ "destroy") :
    (receive s now m).1.clients
      = (if m.type == "heartbeat"
         then ((touchClient s m.clientKey now).clients.map fun c =>
                if c.clientKey == m.clientKey then { c with heartbeat := now } else c)
         else (touchClient s m.clientKey now).clients) := by
  unfold receive
  by_cases h1 : m.type = "subscribe"
  · rw [h1]
    simp only [beq_self_eq_true, if_true]
    rw [handleSubscribe_fst_clients]
    rfl
  · rw [if_neg (by simpa using h1)]
    by_cases h2 : m.type = "add-torrent"
    · rw [h2]
      simp only [beq_self_eq_true, if_true]
      rw [handleAddTorrent_fst_clients]
      rfl
    · rw [if_neg (by simpa using h2)]
      by_cases h3 : m.type = "create-server"
      · rw [h3]
        simp only [beq_self_eq_true, if_true]
        rw [handleCreateServer_fst_clients]
        rfl
      · rw [if_neg (by simpa using h3)]
        by_cases h4 : m.type = "heartbeat"
        · rw [h4]
          simp only [beq_self_eq_true, if_true]
          unfold handleHeartbeat
          cases hf : (touchClient s m.clientKey now).clients.find? fun c => c.clientKey == m.clientKey with
          | none => rw [touchClient_find] at hf; exact absurd hf (by simp)
          | some cl => rfl
        · rw [if_neg (by simpa using h4), if_neg (by simpa using hnd),
            if_neg (by simpa using h4)]

/-- C4 counterexample: an already-known client sending a non-heartbeat
message does not get its `heartbeat` timestamp refreshed, contradicting
the claim that every received message refreshes `lastHeartbeat`. -/
def c4State : ServerState :=
  { webtorrent := false
    clients := [{ clientKey := "a", heartbeat := 0 }]
    torrents := []
    heartbeatTimeout := none }

/-- Witness data: a subscribe message from the already-known client. -/
def c4Message : InMessage :=
  { clientKey := "a"
    type := "subscribe"
    torrentKey := "k"
    torrentID := none
    optionsServer := false
    optionsDelay := none }

theorem receive_no_refresh_counterexample :
    (receive c4State 100 c4Message).1.clients.find? (fun c => c.clientKey == ("a"))
      ≠ some { clientKey := "a", heartbeat := 100 } := by decide

/-- C4 amended: `receive` touches-or-creates the client entry for
`clientKey` before dispatch - an absent entry is created with the current
timestamp, so the entry always exists afterwards - but an existing client's
`lastHeartbeat` is refreshed only by explicit heartbeat messages; every
other message type leaves an existing entry's timestamp unchanged (and
`destroy` removes the client, so it is excluded here). -/
theorem receive_touch_create_amended (s : ServerState) (now : Int)
    (m : InMessage) (hnd : m.type ≠ "destroy") :
    (((receive s now m).1.clients.find? fun c => c.clientKey == m.clientKey).isSome) ∧
    ((s.clients.find? fun c => c.clientKey == m.clientKey) = none →
      ((receive s now m).1.clients.find? fun c => c.clientKey == m.clientKey)
        = some { clientKey := m.clientKey, heartbeat := now }) ∧
    (∀ cl, (s.clients.find? fun c => c.clientKey == m.clientKey) = some cl →
      ((receive s now m).1.clients.find? fun c => c.clientKey == m.clientKey)
        = some (if m.type == "heartbeat" then { cl with heartbeat := now } else cl)) := by
  have hrc := receive_fst_clients_eq s now m hnd
  have hkey :
      (if m.type == "heartbeat"
       then ((touchClient s m.clientKey now).clients.map fun c =>
              if c.clientKey == m.clientKey then { c with heartbeat := now } else c)
       else (touchClient s m.clientKey now).clients).find?
          (fun c => c.clientKey == m.clientKey)
        = some (if m.type == "heartbeat"
                then { ((s.clients.find? fun c => c.clientKey == m.clientKey).getD
                          { clientKey := m.clientKey, heartbeat := now }) with heartbeat := now }
                else ((s.clients.find? fun c => c.clientKey == m.clientKey).getD
                          { clientKey := m.clientKey, heartbeat := now })) := by
    by_cases hb : (m.type == "heartbeat") = true
    · rw [if_pos hb, if_pos hb, find?_map_heartbeat_update, touchClient_find]
      rfl
    · rw [if_neg hb, if_neg hb, touchClient_find]
  refine ⟨?_, ?_, ?_⟩
  · rw [hrc, hkey]
    rfl
  · intro hf
    rw [hrc, hkey, hf]
    by_cases hb : (m.type == "heartbeat") = true
    · rw [if_pos hb]
      rfl
    · rw [if_neg hb]
      rfl
  · intro cl hf
    rw [hrc, hkey, hf]
    rfl

theorem receive_touch_create_amended_witness :
    (((receive c4State 100 c4Message).1.clients.find? fun c => c.clientKey == c4Message.clientKey).isSome) ∧
    ((c4State.clients.find? fun c => c.clientKey == c4Message.clientKey) = none →
      ((receive c4State 100 c4Message).1.clients.find? fun c => c.clientKey == c4Message.clientKey)
        = some { clientKey := c4Message.clientKey, heartbeat := 100 }) ∧
    (∀ cl, (c4State.clients.find? fun c => c.clientKey == c4Message.clientKey) = some cl →
      ((receive c4State 100 c4Message).1.clients.find? fun c => c.clientKey == c4Message.clientKey)
        = some (if c4Message.type == "heartbeat" then { cl with heartbeat := 100 } else cl)) :=
  receive_touch_create_amended c4State 100 c4Message (by decide)

/-! ### C5 -/

theorem touchClient_torrents (s : ServerState) (ck : String) (now : Int) :
    (touchClient s ck now).torrents = s.torrents := by
  unfold touchClient; split <;> rfl

theorem touchClient_webtorrent (s : ServerState) (ck : String) (now : Int) :
    (touchClient s ck now).webtorrent = s.webtorrent := by
  unfold touchClient; split <;> rfl

theorem handleSubscribe_no_match (s : ServerState) (m : InMessage)
    (hfind : s.torrents.find? (fun t => t.infoHash == parseInfoHash m.torrentID) = none) :
    handleSubscribe s m
      = (s, [Effect.send { payload := Payload.subscribed none
                           clientKey := m.clientKey
                           torrentKey := some m.torrentKey }]) := by
  by_cases hw : s.webtorrent = true
  · simp [handleSubscribe, hw, hfind, sendSubscribed]
  · simp [handleSubscribe, hw, sendSubscribed]

/-- C5: a subscribe message whose resource identifier is absent, malformed
(no fingerprint), or parses to a fingerprint matching no registered swarm
is answered with a single `torrent-subscribed` message carrying a null
torrent payload and the `(clientKey, torrentKey)` pair; the handler is
total (no crash in the model), does not change the swarm registry, and
does not create the engine instance - the engine reference stays exactly
as it was. -/
theorem handleSubscribe_null_response
    (s : ServerState) (now : Int) (m : InMessage)
    (hty : m.type = "subscribe")
    (hInv : ∀ t ∈ s.torrents, t.infoHash ≠ none)
    (hcase : parseInfoHash m.torrentID = none ∨
      ∀ t ∈ s.torrents, t.infoHash ≠ parseInfoHash m.torrentID) :
    (receive s now m).1.webtorrent = s.webtorrent ∧
    (receive s now m).1.torrents = s.torrents ∧
    (receive s now m).2
      = [Effect.send { payload := Payload.subscribed none
                       clientKey := m.clientKey
                       torrentKey := some m.torrentKey }] := by
  have hfind : ∀ s2 : ServerState, s2.torrents = s.torrents →
      s2.torrents.find? (fun t => t.infoHash == parseInfoHash m.torrentID) = none := by
    intro s2 hs2
    rw [hs2, List.find?_eq_none]
    intro t htm
    rcases hcase with hna | hnm
    · rw [hna]
      cases hih : t.infoHash with
      | none => exact absurd hih (hInv t htm)
      | some v => simp
    · intro hbeq
      exact hnm t htm (by rwa [beq_iff_eq] at hbeq)
  have hrec : receive s now m = handleSubscribe (touchClient s m.clientKey now) m := by
    unfold receive
    rw [hty]
    rfl
  rw [hrec, handleSubscribe_no_match (touchClient s m.clientKey now) m
    (hfind _ (touchClient_torrents s m.clientKey now))]
  exact ⟨touchClient_webtorrent s m.clientKey now, touchClient_torrents s m.clientKey now, rfl⟩

theorem handleSubscribe_null_response_witness :
    (receive c2State 100 c4Message).1.webtorrent = c2State.webtorrent ∧
    (receive c2State 100 c4Message).1.torrents = c2State.torrents ∧
    (receive c2State 100 c4Message).2
      = [Effect.send { payload := Payload.subscribed none
                       clientKey := c4Message.clientKey
                       torrentKey := some c4Message.torrentKey }] :=
  handleSubscribe_null_response c2State 100 c4Message (by decide) (by decide)
    (Or.inl (by decide))

/-! ### C7 -/

theorem webtorrentLazy_snd (s : ServerState) :
    (webtorrentLazy s).2 = if s.webtorrent then [] else [Effect.engineCreate] := by
  unfold webtorrentLazy
  split <;> simp_all

theorem getTorrentByKey_none (s : ServerState) (k : String)
    (hno : ∀ t ∈ s.torrents, hasTorrentKey t k = false) :
    getTorrentByKey s k
      = ((webtorrentLazy s).1, none,
         (webtorrentLazy s).2
           ++ sendToAllClients (webtorrentLazy s).1
                (Payload.errorEvent ("warning") (("missing torrentKey: ") ++ k))) := by
  have hfind : s.torrents.find? (fun t => hasTorrentKey t k) = none := by
    rw [List.find?_eq_none]
    intro t htm
    simp [hno t htm]
  simp [getTorrentByKey, webtorrentLazy_torrents, hfind, sendError]

/-- Witness data: two registered clients, no swarms. -/
def c7State : ServerState :=
  { webtorrent := true
    clients := [{ clientKey := "a", heartbeat := 0 }, { clientKey := "b", heartbeat := 0 }]
    torrents := []
    heartbeatTimeout := none }

/-- Witness data: a create-server request with an untracked torrentKey. -/
def c7Message : InMessage :=
  { clientKey := "a"
    type := "create-server"
    torrentKey := "nope"
    torrentID := none
    optionsServer := false
    optionsDelay := none }

/-- C7 counterexample: the warning diagnostic for an unknown correlation
key is broadcast by `sendToAllClients`, so with two registered clients a
message addressed to the non-requesting client "b" is also emitted,
refuting "emits only a warning-level diagnostic addressed to the requesting
client". -/
theorem handleCreateServer_broadcast_counterexample :
    Effect.send { payload := Payload.errorEvent ("warning") (("missing torrentKey: ") ++ ("nope"))
                  clientKey := "b"
                  torrentKey := none } ∈ (handleCreateServer c7State c7Message).2 ∧
    ("b" : String) ≠ c7Message.clientKey := by decide

/-- C7 amended: for every create-server message whose torrentKey matches
no current subscription of any registered swarm, the broker does not crash
and leaves the client and swarm registries unchanged; it lazily creates
the engine instance if it was absent, emits one warning-level diagnostic
per registered client (a broadcast that includes the requester), and emits
neither a server-ready response nor a listen call. -/
theorem handleCreateServer_unknown_key_amended
    (s : ServerState) (m : InMessage)
    (hno : ∀ t ∈ s.torrents, hasTorrentKey t m.torrentKey = false) :
    (handleCreateServer s m).1.clients = s.clients ∧
    (handleCreateServer s m).1.torrents = s.torrents ∧
    (handleCreateServer s m).1.webtorrent = true ∧
    (handleCreateServer s m).2
      = (if s.webtorrent then [] else [Effect.engineCreate])
        ++ s.clients.map (fun c => Effect.send
            { payload := Payload.errorEvent ("warning") (("missing torrentKey: ") ++ m.torrentKey)
              clientKey := c.clientKey
              torrentKey := none }) ∧
    (∀ (u : Option String) (ck : String) (tk : Option String),
      Effect.send { payload := Payload.ready u, clientKey := ck, torrentKey := tk }
        ∉ (handleCreateServer s m).2) ∧
    Effect.listen ∉ (handleCreateServer s m).2 := by
  have hgtk := getTorrentByKey_none s m.torrentKey hno
  have heff : (handleCreateServer s m)
      = ((webtorrentLazy s).1,
         (webtorrentLazy s).2
           ++ sendToAllClients (webtorrentLazy s).1
                (Payload.errorEvent ("warning") (("missing torrentKey: ") ++ m.torrentKey))) := by
    unfold handleCreateServer
    rw [hgtk]
  rw [heff]
  have hsends : sendToAllClients (webtorrentLazy s).1
        (Payload.errorEvent ("warning") (("missing torrentKey: ") ++ m.torrentKey))
      = s.clients.map (fun c => Effect.send
          { payload := Payload.errorEvent ("warning") (("missing torrentKey: ") ++ m.torrentKey)
            clientKey := c.clientKey
            torrentKey := none }) := by
    unfold sendToAllClients
    rw [webtorrentLazy_clients]
  refine ⟨webtorrentLazy_clients s, webtorrentLazy_torrents s, webtorrentLazy_webtorrent s,
    by rw [webtorrentLazy_snd, hsends], ?_, ?_⟩
  · intro u ck tk hmem
    rw [List.mem_append] at hmem
    rcases hmem with hl | hr
    · rw [webtorrentLazy_snd] at hl
      revert hl
      split <;> simp
    · rw [hsends, List.mem_map] at hr
      obtain ⟨c, _, heq⟩ := hr
      simp at heq
  · intro hmem
    rw [List.mem_append] at hmem
    rcases hmem with hl | hr
    · rw [webtorrentLazy_snd] at hl
      revert hl
      split <;> simp
    · rw [hsends, List.mem_map] at hr
      obtain ⟨c, _, heq⟩ := hr
      simp at heq

theorem handleCreateServer_unknown_key_amended_witness :
    (handleCreateServer c7State c7Message).1.clients = c7State.clients ∧
    (handleCreateServer c7State c7Message).1.torrents = c7State.torrents ∧
    (handleCreateServer c7State c7Message).1.webtorrent = true ∧
    (handleCreateServer c7State c7Message).2
      = (if c7State.webtorrent then [] else [Effect.engineCreate])
        ++ c7State.clients.map (fun c => Effect.send
            { payload := Payload.errorEvent ("warning") (("missing torrentKey: ") ++ c7Message.torrentKey)
              clientKey := c.clientKey
              torrentKey := none }) ∧
    (∀ (u : Option String) (ck : String) (tk : Option String),
      Effect.send { payload := Payload.ready u, clientKey := ck, torrentKey := tk }
        ∉ (handleCreateServer c7State c7Message).2) ∧
    Effect.listen ∉ (handleCreateServer c7State c7Message).2 :=
  handleCreateServer_unknown_key_amended c7State c7Message (by decide)

/-! ### C8 -/

/-- Witness data: the initial broker state. -/
def emptyState : ServerState :=
  { webtorrent := false, clients := [], torrents := [], heartbeatTimeout := none }

/-- Witness data: an unrecognized message type from a fresh client. -/
def c8Message : InMessage :=
  { clientKey := "z"
    type := "frobnicate"
    torrentKey := "k"
    torrentID := none
    optionsServer := false
    optionsDelay := none }

/-- C8 counterexample: an unknown-type message from an unseen `clientKey`
still creates the client registry entry (the touch-or-create prologue runs
before the type dispatch), so the broker state does change, refuting "no
client, swarm, or engine state is created or mutated". -/
theorem receive_unknown_type_counterexample :
    (receive emptyState 5 c8Message).1 ≠ emptyState := by decide

/-- C8 amended: for every inbound message whose type is none of the
recognized kinds, `receive` emits only the non-fatal diagnostic, dispatches
no handler (no `_send`, no engine or swarm effect), does not crash, and
leaves the swarm registry and engine reference unchanged; the only state
change is the touch-or-create of the client entry that every inbound
message performs. -/
theorem receive_unknown_type_amended (s : ServerState) (now : Int) (m : InMessage)
    (h1 : m.type ≠ "subscribe") (h2 : m.type ≠ "add-torrent")
    (h3 : m.type ≠ "create-server") (h4 : m.type ≠ "heartbeat")
    (h5 : m.type ≠ "destroy") :
    receive s now m
      = (touchClient s m.clientKey now,
         [Effect.logError (("ignoring unknown message type: ") ++ m.type)]) ∧
    (receive s now m).1.torrents = s.torrents ∧
    (receive s now m).1.webtorrent = s.webtorrent ∧
    (∀ e : Envelope, Effect.send e ∉ (receive s now m).2) := by
  have hr : receive s now m
      = (touchClient s m.clientKey now,
         [Effect.logError (("ignoring unknown message type: ") ++ m.type)]) := by
    unfold receive
    rw [if_neg (by simpa using h1), if_neg (by simpa using h2),
      if_neg (by simpa using h3), if_neg (by simpa using h4),
      if_neg (by simpa using h5)]
  refine ⟨hr, ?_, ?_, ?_⟩
  · rw [hr]
    exact touchClient_torrents s m.clientKey now
  · rw [hr]
    exact touchClient_webtorrent s m.clientKey now
  · intro e hmem
    rw [hr] at hmem
    simp at hmem

theorem receive_unknown_type_amended_witness :
    receive emptyState 5 c8Message
      = (touchClient emptyState c8Message.clientKey 5,
         [Effect.logError (("ignoring unknown message type: ") ++ c8Message.type)]) ∧
    (receive emptyState 5 c8Message).1.torrents = emptyState.torrents ∧
    (receive emptyState 5 c8Message).1.webtorrent = emptyState.webtorrent ∧
    (∀ e : Envelope, Effect.send e ∉ (receive emptyState 5 c8Message).2) :=
  receive_unknown_type_amended emptyState 5 c8Message (by decide) (by decide)
    (by decide) (by decide) (by decide)

/-! ### C9 -/

theorem removeDeadClients_clients (s : ServerState) (now hbt : Int)
    (hN : (s.clients.map Client.clientKey).Nodup) :
    (removeDeadClients s now hbt).1.clients
      = s.clients.filter fun c => decide (now - c.heartbeat ≤ hbt) := by
  unfold removeDeadClients
  by_cases hk : ((s.clients.filter fun c => decide (now - c.heartbeat > hbt)).map
      fun c => c.clientKey) = []
  · rw [hk]
    have hnil : s.clients.filter (fun c => decide (now - c.heartbeat > hbt)) = [] := by
      have := hk
      rw [List.map_eq_nil_iff] at this
      exact this
    have hall := List.filter_eq_nil_iff.mp hnil
    show s.clients = _
    symm
    rw [List.filter_eq_self]
    intro c hc
    have hnd := hall c hc
    simp only [decide_eq_true_eq] at hnd ⊢
    omega
  · rw [killClients_fst_clients hk]
    apply List.filter_congr
    intro c hc
    by_cases hdead : now - c.heartbeat > hbt
    · have hin : c.clientKey ∈ (s.clients.filter fun c => decide (now - c.heartbeat > hbt)).map
          (fun c => c.clientKey) :=
        List.mem_map.mpr ⟨c, List.mem_filter.mpr ⟨hc, by simpa⟩, rfl⟩
      have hcon : ((s.clients.filter fun c => decide (now - c.heartbeat > hbt)).map
          (fun c => c.clientKey)).contains c.clientKey = true := by
        simpa [List.elem_eq_mem] using hin
      have hle : ¬ (now - c.heartbeat ≤ hbt) := by omega
      rw [hcon]
      simp [hle]
    · have hnin : c.clientKey ∉ (s.clients.filter fun c => decide (now - c.heartbeat > hbt)).map
          (fun c => c.clientKey) := by
        intro hmem2
        obtain ⟨d, hd, hdk⟩ := List.mem_map.mp hmem2
        rw [List.mem_filter] at hd
        have hdc2 : d = c := List.inj_on_of_nodup_map hN hd.1 hc hdk
        subst hdc2
        simp only [decide_eq_true_eq] at hd
        exact hdead hd.2
      have hcon : ((s.clients.filter fun c => decide (now - c.heartbeat > hbt)).map
          (fun c => c.clientKey)).contains c.clientKey = false := by
        simpa [List.elem_eq_mem] using hnin
      have hle : now - c.heartbeat ≤ hbt := by omega
      rw [hcon]
      simp [hle]

/-- C9: on every sweep tick (`sendUpdates`), client expiry uses a
heartbeat timeout defaulting to 30000 ms when the option is unspecified; a
zero or negative configured timeout disables expiry entirely (the sweep
leaves the state untouched); and when enabled, exactly the clients whose
heartbeat age strictly exceeds the timeout are expired (the survivors are
exactly those with age at most the timeout). -/
theorem sendUpdates_heartbeat_expiry (s : ServerState) (now : Int)
    (hN : (s.clients.map Client.clientKey).Nodup) :
    (s.heartbeatTimeout = none →
      (sendUpdates s now).1.clients
        = s.clients.filter fun c => decide (now - c.heartbeat ≤ 30000)) ∧
    (∀ v, s.heartbeatTimeout = some v → v ≤ 0 → (sendUpdates s now).1 = s) ∧
    (∀ v, s.heartbeatTimeout = some v → 0 < v →
      (sendUpdates s now).1.clients
        = s.clients.filter fun c => decide (now - c.heartbeat ≤ v)) := by
  refine ⟨?_, ?_, ?_⟩
  · intro h0
    have hfst : (sendUpdates s now).1 = (removeDeadClients s now 30000).1 := by
      simp [sendUpdates, h0]
    rw [hfst, removeDeadClients_clients s now 30000 hN]
  · intro v hv hle
    have hneg : ¬ ((0 : Int) < v) := by omega
    simp [sendUpdates, hv, hneg]
  · intro v hv hpos
    have hfst : (sendUpdates s now).1 = (removeDeadClients s now v).1 := by
      simp [sendUpdates, hv, hpos]
    rw [hfst, removeDeadClients_clients s now v hN]

/-- Witness data: one fresh and one stale client. -/
def c9State : ServerState :=
  { webtorrent := false
    clients := [{ clientKey := "a", heartbeat := 9000 },
                { clientKey := "b", heartbeat := -60000 }]
    torrents := []
    heartbeatTimeout := none }

theorem sendUpdates_heartbeat_expiry_witness :
    (c9State.heartbeatTimeout = none →
      (sendUpdates c9State 10000).1.clients
        = c9State.clients.filter fun c => decide (10000 - c.heartbeat ≤ 30000)) ∧
    (∀ v, c9State.heartbeatTimeout = some v → v ≤ 0 → (sendUpdates c9State 10000).1 = c9State) ∧
    (∀ v, c9State.heartbeatTimeout = some v → 0 < v →
      (sendUpdates c9State 10000).1.clients
        = c9State.clients.filter fun c => decide (10000 - c.heartbeat ≤ v)) :=
  sendUpdates_heartbeat_expiry c9State 10000 (by decide)

/-! ### C10 -/

theorem getTorrentByKey_snd (s : ServerState) (k : String) :
    (getTorrentByKey s k).2.1 = s.torrents.find? (fun t => hasTorrentKey t k) := by
  cases hf : s.torrents.find? fun t => hasTorrentKey t k with
  | some t => simp [getTorrentByKey, webtorrentLazy_torrents, hf]
  | none => simp [getTorrentByKey, webtorrentLazy_torrents, hf]

/-- C10: `getTorrentByKey` resolves only through current subscriptions -
it locates a swarm iff some subscription currently on some registered
swarm carries the requested `torrentKey`; consequently, once every
subscription carrying that key belongs to killed clients, the key no
longer resolves to any swarm after the teardown, even if swarms survive
through other subscribers. -/
theorem getTorrentByKey_resolves_iff (s : ServerState) (k : String)
    (keys : List String) :
    ((getTorrentByKey s k).2.1.isSome
        ↔ ∃ t ∈ s.torrents, ∃ c ∈ t.clients, c.torrentKey = k) ∧
    ((∀ t ∈ s.torrents, ∀ c ∈ t.clients, c.torrentKey = k → c.clientKey ∈ keys) →
      (getTorrentByKey (killClients s keys).1 k).2.1 = none) := by
  constructor
  · rw [getTorrentByKey_snd, List.find?_isSome]
    simp only [hasTorrentKey, List.any_eq_true, beq_iff_eq]
  · intro hall
    rw [getTorrentByKey_snd, List.find?_eq_none]
    intro t ht
    by_cases hk : keys = []
    · subst hk
      have ht2 : t ∈ s.torrents := ht
      intro hp
      simp only [hasTorrentKey, List.any_eq_true, beq_iff_eq] at hp
      obtain ⟨c, hcm, hck⟩ := hp
      have := hall t ht2 c hcm hck
      simp at this
    · rw [killClients_fst_torrents hk] at ht
      rw [List.mem_filter] at ht
      obtain ⟨hmap, _⟩ := ht
      rw [List.mem_map] at hmap
      obtain ⟨u, hu, rfl⟩ := hmap
      intro hp
      simp only [hasTorrentKey, List.any_eq_true, beq_iff_eq] at hp
      obtain ⟨c, hcm, hck⟩ := hp
      rw [killSubscriptions_clients, List.mem_filter] at hcm
      have hkc := hall u hu c hcm.1 hck
      have hnc := hcm.2
      simp [List.elem_eq_mem, hkc] at hnc

theorem getTorrentByKey_resolves_iff_witness :
    ((getTorrentByKey c2State ("k1")).2.1.isSome
        ↔ ∃ t ∈ c2State.torrents, ∃ c ∈ t.clients, c.torrentKey = ("k1")) ∧
    ((∀ t ∈ c2State.torrents, ∀ c ∈ t.clients, c.torrentKey = ("k1") → c.clientKey ∈ ["a"]) →
      (getTorrentByKey (killClients c2State ["a"]).1 ("k1")).2.1 = none) :=
  getTorrentByKey_resolves_iff c2State ("k1") ["a"]

end WebTorrentRemote
